import Mathlib

/-!
Verification of the SOWFA internal-coupling writer (`coupling/sowfa.py`).

The module wraps a time-indexed, height-resolved tabular dataset and
exposes three export operations producing solver-readable text files.
We embed the data model shallowly:

* a dataset row carries its time label, its height label and an
  association list of named field values, `none` standing for a missing
  value (NaN);
* time labels and field values are integers (seconds, SI values): no
  claim depends on fractional or floating-point behaviour, and integer
  arithmetic keeps every definition kernel-computable;
* the rendered output file is a list of structured lines: each
  `np.savetxt` row becomes a `Line.parenRow` of format-tagged cells
  (`%g` is `NumFmt.general`, `%.12g` is `NumFmt.sig12`), the height-list
  lines (`fmt='    %g'`) become `Line.bareNum`, and literal writes such
  as block names, `(` headers and `);` footers become `Line.label`;
* the file system is an association list from file names to rendered
  line lists; exports thread it explicitly together with the writer
  state, mirroring the Python object's `self.df` field.

Python `assert` failures are modelled by the error taxonomy of the
specification (`EmptyWindowError`, `MissingFieldError`,
`IncompleteDataError`, `IncompleteMomentumSpecError`); the `IndexError` /
`KeyError` raised by pandas on an empty frame or an absent `.loc` key is
modelled by `indexError`, and the `ValueError` raised by `pivot` on
duplicate (time, height) pairs by `pivotDuplicateError`.
-/

deriving instance DecidableEq for Except

namespace Sowfa

/-- Error taxonomy of the writer, following the specification names for
the assertion sites of the source. -/
inductive CouplingError where
  | emptyWindowError
  | indexError
  | missingFieldError
  | incompleteDataError
  | incompleteMomentumSpecError
  | pivotDuplicateError
deriving DecidableEq, Repr

/-- Numeric format tags of `np.savetxt` format strings: `%g`
(general/shortest) and `%.12g` (12 significant digits). -/
inductive NumFmt where
  | general
  | sig12
deriving DecidableEq, Repr

/-- One rendered output line. -/
inductive Line where
  /-- A data row `    (c1 c2 ... cn)` written by `np.savetxt` with a
  format list opening `    (%g` and closing `...)`. -/
  | parenRow (cells : List (NumFmt × ℤ))
  /-- A bare numeric line `    v` written with format `    %g`
  (height lists). -/
  | bareNum (f : NumFmt) (v : ℤ)
  /-- A literal text line: block names, `(` headers, `);` footers and
  the blank line after a footer. -/
  | label (s : String)
deriving DecidableEq, Repr

/-- A dataset row: the time label (seconds), the height label and the
named field values; `none` models a NaN cell. -/
structure Row where
  time : ℤ
  height : ℤ
  vals : List (String × Option ℤ)
deriving DecidableEq, Repr

/-- Value of field `f` in row `r`; `none` when the cell is missing or
holds NaN. -/
def Row.get (r : Row) (f : String) : Option ℤ :=
  (r.vals.lookup f).join

/-- The source dataset handed to the writer: column names plus rows. -/
structure DataFrame where
  cols : List String
  rows : List Row
deriving DecidableEq, Repr

/-- A row of the bound working copy: the original row data plus the
derived numeric time coordinate `t_index`. -/
structure BRow where
  time : ℤ
  height : ℤ
  t_index : ℤ
  vals : List (String × Option ℤ)
deriving DecidableEq, Repr

/-- Value of field `f` in a bound row. -/
def BRow.get (r : BRow) (f : String) : Option ℤ :=
  (r.vals.lookup f).join

/-- Forget the derived time coordinate. -/
def BRow.toRow (r : BRow) : Row :=
  { time := r.time, height := r.height, vals := r.vals }

/-- The writer state after construction (`InternalCoupling.__init__`):
the bound working copy (columns and rows with `t_index`), the resolved
window start kept for the initial-conditions export, and the optional
reference instant. -/
structure InternalCoupling where
  cols : List String
  rows : List BRow
  datefrom : ℤ
  dateref : Option ℤ
deriving DecidableEq, Repr

/-- Resolve the window start: `df.index[0]` when unspecified
(`none` when the frame is empty, modelling the pandas `IndexError`). -/
def resolveFrom (df : DataFrame) (datefrom : Option ℤ) : Option ℤ :=
  match datefrom with
  | some a => some a
  | none => df.rows.head?.map Row.time

/-- Resolve the window end: `df.index[-1]` when unspecified. -/
def resolveTo (df : DataFrame) (dateto : Option ℤ) : Option ℤ :=
  match dateto with
  | some b => some b
  | none => df.rows.getLast?.map Row.time

/-- The derived time coordinate of one timestamp: seconds since the
reference instant when one is supplied
(`(self.df['datetime'] - dateref) / pd.Timedelta(1,unit='s')`), and the
total seconds of the elapsed-time label otherwise
(`self.df.index.total_seconds()`). -/
def tShift (dateref : Option ℤ) (t : ℤ) : ℤ :=
  match dateref with
  | some c => t - c
  | none => t

/-- Attach the derived time coordinate to a filtered row. -/
def mkBRow (dateref : Option ℤ) (r : Row) : BRow :=
  { time := r.time, height := r.height, t_index := tShift dateref r.time,
    vals := r.vals }

/-- The window predicate `(df.index>=datefrom) & (df.index<=dateto)`. -/
def inWindow (a b : ℤ) (r : Row) : Bool :=
  decide (a ≤ r.time ∧ r.time ≤ b)

/-- Embedding of `InternalCoupling.__init__`: resolve the window
endpoints, filter the rows to the closed window, fail with
`emptyWindowError` when no row survives
(`assert(len(self.df.index.unique())>0)`), and compute `t_index` in the
mode fixed by `dateref`. -/
def initIC (df : DataFrame) (dateref datefrom dateto : Option ℤ) :
    Except CouplingError InternalCoupling :=
  match resolveFrom df datefrom, resolveTo df dateto with
  | some a, some b =>
    let sel := df.rows.filter (inWindow a b)
    if sel = [] then
      .error .emptyWindowError
    else
      .ok { cols := df.cols, rows := sel.map (mkBRow dateref),
            datefrom := a, dateref := dateref }
  | _, _ => .error .indexError

/-- The output directory as a map from file names to rendered files. -/
abbrev FS := List (String × List Line)

/-- Opening a file for writing and writing its full content; an existing
file of the same name is overwritten. -/
def fsWrite (fs : FS) (name : String) (content : List Line) : FS :=
  (name, content) :: fs.filter (fun p => p.1 != name)

/-- Completeness of field `f` over a set of bound rows: the
`~pd.isna(...).any()` check. -/
def completeOn (rows : List BRow) (f : String) : Bool :=
  rows.all (fun r => (r.get f).isSome)

/-- Embedding of `InternalCoupling.write_BCs` up to the rendered lines:
assert the field exists, assert it is complete, then emit one row
`    (%g %.12g)` per bound row holding `t_index` and the scaled value. -/
def write_BCs (ic : InternalCoupling) (fieldname : String) (fact : ℤ) :
    Except CouplingError (List Line) :=
  if fieldname ∈ ic.cols then
    if completeOn ic.rows fieldname then
      .ok (ic.rows.map (fun r =>
        .parenRow [(.general, r.t_index),
                   (.sig12, fact * ((r.get fieldname).getD 0))]))
    else .error .incompleteDataError
  else .error .missingFieldError

/-- `write_BCs` threading the writer state and the file system: the
file is opened only after both assertions pass, and `self.df` is never
assigned. -/
def write_BCs_full (ic : InternalCoupling) (fs : FS) (fname fieldname : String)
    (fact : ℤ) : Except CouplingError Unit × InternalCoupling × FS :=
  match write_BCs ic fieldname fact with
  | .error e => (.error e, ic, fs)
  | .ok ls => (.ok (), ic, fsWrite fs fname ls)

/-- The start-of-window snapshot `self.df.loc[self.datefrom]`. -/
def snapshotOf (ic : InternalCoupling) : List BRow :=
  ic.rows.filter (fun r => decide (r.time = ic.datefrom))

/-- Append an all-zero column named `f` to a list of bound rows
(`df.loc[:,f] = 0.0`). -/
def addZeroCol (rows : List BRow) (f : String) : List BRow :=
  rows.map (fun r => { r with vals := r.vals ++ [(f, some 0)] })

/-- One step of the missing-field zero-fill loop over a (columns, rows)
frame: skip when the column exists, otherwise add an all-zero column. -/
def zfOne (p : List String × List BRow) (f : String) :
    List String × List BRow :=
  if f ∈ p.1 then p else (p.1 ++ [f], addZeroCol p.2 f)

/-- The missing-field zero-fill loop
(`for field in fieldNames: if not field in df.columns: ...`). -/
def zfMany (p : List String × List BRow) (fs : List String) :
    List String × List BRow :=
  fs.foldl zfOne p

/-- Embedding of `InternalCoupling.write_ICs` up to the rendered lines:
take a copy of the start-of-window snapshot (a missing `.loc` key is a
pandas `KeyError`, modelled by `indexError`), zero-fill the requested
fields that are absent from the columns, assert each requested field is
complete on the snapshot, then emit one row
`    (%g %.12g %.12g %.12g)` per snapshot row holding height, x-velocity,
y-velocity and temperature. -/
def write_ICs (ic : InternalCoupling) (xmom ymom temp : String) :
    Except CouplingError (List Line) :=
  let snap := snapshotOf ic
  if snap = [] then .error .indexError
  else
    let p := zfMany (ic.cols, snap) [xmom, ymom, temp]
    if [xmom, ymom, temp].all (completeOn p.2) then
      .ok (p.2.map (fun r =>
        .parenRow [(.general, r.height),
                   (.sig12, (r.get xmom).getD 0),
                   (.sig12, (r.get ymom).getD 0),
                   (.sig12, (r.get temp).getD 0)]))
    else .error .incompleteDataError

/-- `write_ICs` threading the writer state and the file system: the
snapshot is an explicit `.copy()`, so the bound copy is returned
untouched on every path. -/
def write_ICs_full (ic : InternalCoupling) (fs : FS) (fname xmom ymom temp : String) :
    Except CouplingError Unit × InternalCoupling × FS :=
  match write_ICs ic xmom ymom temp with
  | .error e => (.error e, ic, fs)
  | .ok ls => (.ok (), ic, fsWrite fs fname ls)

/-- Distinct values in order of first appearance: the semantics of
`pandas.Series.unique`. -/
def uniqApp (l : List ℤ) : List ℤ :=
  (l.reverse.dedup).reverse

/-- Zero-fill of requested fields absent from the bound copy inside
`write_timeheight`; unlike `write_ICs` this acts on `self.df` itself. -/
def zeroFillIC (ic : InternalCoupling) (fields : List String) :
    InternalCoupling :=
  let p := zfMany (ic.cols, ic.rows) fields
  { ic with cols := p.1, rows := p.2 }

/-- The pivot cell for field `f` at time `t` and height `h`: the value
of the unique row carrying this (time, height) pair, `none` (NaN) when
the pair has no row. -/
def cellVal (rows : List BRow) (f : String) (t h : ℤ) : Option ℤ :=
  (rows.find? (fun r => decide (r.time = t ∧ r.height = h))).bind
    (fun r => r.get f)

/-- A height-list block: the block name, the `(` header, one bare `%g`
line per height, the `);` footer and the blank line that the trailing
newline of the footer string produces. -/
def thHeightsBlock (name : String) (zs : List ℤ) : List Line :=
  [.label name, .label "("] ++ zs.map (fun h => .bareNum .general h) ++
    [.label ");", .label ""]

/-- A time-height table block: the block name, the `(` header, one data
row per distinct time pairing the appearance-order time value with the
pivot row of the sorted time of the same rank over the ascending
heights, the `);` footer and the blank line. -/
def thTableBlock (name : String) (tsApp tSorted hsSorted : List ℤ)
    (getv : ℤ → ℤ → ℤ) : List Line :=
  [.label name, .label "("] ++
    (List.range tsApp.length).map (fun i =>
      .parenRow ((.general, tsApp.getD i 0) ::
        hsSorted.map (fun h => (.sig12, getv (tSorted.getD i 0) h)))) ++
    [.label ");", .label ""]

/-- The momentum all-or-nothing guard: true when some but not all of
the three momentum components are supplied
(`any(have_xyz_mom) and not all(have_xyz_mom)`). -/
def momBad (xmom ymom zmom : Option String) : Bool :=
  [xmom.isSome, ymom.isSome, zmom.isSome].any id &&
    !([xmom.isSome, ymom.isSome, zmom.isSome].all id)

/-- How many of the three momentum components are supplied. -/
def momCount (xmom ymom zmom : Option String) : Nat :=
  [xmom.isSome, ymom.isSome, zmom.isSome].count true

/-- The height array `zs = self.df.height.unique()`, in order of first
appearance; computed before the zero-fill. -/
def thZs (ic : InternalCoupling) : List ℤ :=
  uniqApp (ic.rows.map (fun r => r.height))

/-- The time array `ts = self.df.t_index.unique()`, in order of first
appearance. -/
def thTs (ic : InternalCoupling) : List ℤ :=
  uniqApp (ic.rows.map (fun r => r.t_index))

/-- The row labels of the pivoted frame: the distinct time labels in
ascending order. -/
def thTSorted (ic2 : InternalCoupling) : List ℤ :=
  List.insertionSort (fun a b : ℤ => a ≤ b)
    (uniqApp (ic2.rows.map (fun r => r.time)))

/-- The column labels of the pivoted frame: the distinct height labels
in ascending order. -/
def thHsSorted (ic : InternalCoupling) : List ℤ :=
  List.insertionSort (fun a b : ℤ => a ≤ b) (thZs ic)

/-- The completeness assertion of `write_timeheight` over the dense
pivoted grid: every requested field has a value at every
(time, height) pair of the grid. -/
def thComplete (ic ic2 : InternalCoupling) (requested : List String) : Bool :=
  requested.all (fun f => (thTSorted ic2).all (fun t =>
    (thHsSorted ic).all (fun h => (cellVal ic2.rows f t h).isSome)))

/-- Embedding of `InternalCoupling.write_timeheight`: the momentum
all-or-nothing assertion, the appearance-order unique height and time
arrays, the zero-fill of requested absent fields on `self.df` itself,
the pivot (failing on duplicate (time, height) pairs, with sorted row
and column labels), the completeness assertion over the full dense
grid, and finally the block writes: the momentum height list and the
three momentum tables when momentum is requested, the temperature
height list and table when `temp` is truthy (a non-empty name). -/
def write_timeheight_full (ic : InternalCoupling) (fs : FS) (fname : String)
    (xmom ymom zmom temp : Option String) :
    Except CouplingError Unit × InternalCoupling × FS :=
  if momBad xmom ymom zmom then
    (.error .incompleteMomentumSpecError, ic, fs)
  else
    let write_mom := [xmom.isSome, ymom.isSome, zmom.isSome].any id
    let requested := [xmom, ymom, zmom, temp].filterMap id
    let ic2 := zeroFillIC ic requested
    if (ic2.rows.map (fun r => (r.time, r.height))).Nodup then
      if thComplete ic ic2 requested then
        let getv := fun f t h => (cellVal ic2.rows f t h).getD 0
        let momPart :=
          if write_mom then
            thHeightsBlock "sourceHeightsMomentum" (thZs ic) ++
            thTableBlock "sourceTableMomentumX" (thTs ic) (thTSorted ic2)
              (thHsSorted ic) (getv (xmom.getD "")) ++
            thTableBlock "sourceTableMomentumY" (thTs ic) (thTSorted ic2)
              (thHsSorted ic) (getv (ymom.getD "")) ++
            thTableBlock "sourceTableMomentumZ" (thTs ic) (thTSorted ic2)
              (thHsSorted ic) (getv (zmom.getD ""))
          else []
        let tempPart :=
          match temp with
          | some tf =>
            if tf = "" then []
            else
              thHeightsBlock "sourceHeightsTemperature" (thZs ic) ++
              thTableBlock "sourceTableTemperature" (thTs ic) (thTSorted ic2)
                (thHsSorted ic) (getv tf)
          | none => []
        (.ok (), ic2, fsWrite fs fname (momPart ++ tempPart))
      else (.error .incompleteDataError, ic2, fs)
    else (.error .pivotDuplicateError, ic2, fs)

/-- The momentum part of the time-height output: the height list of
`sourceHeightsMomentum` followed by the three momentum table blocks. -/
def thMomLines (ic ic2 : InternalCoupling) (xf yf zf : String) : List Line :=
  thHeightsBlock "sourceHeightsMomentum" (thZs ic) ++
  thTableBlock "sourceTableMomentumX" (thTs ic) (thTSorted ic2)
    (thHsSorted ic) (fun t h => (cellVal ic2.rows xf t h).getD 0) ++
  thTableBlock "sourceTableMomentumY" (thTs ic) (thTSorted ic2)
    (thHsSorted ic) (fun t h => (cellVal ic2.rows yf t h).getD 0) ++
  thTableBlock "sourceTableMomentumZ" (thTs ic) (thTSorted ic2)
    (thHsSorted ic) (fun t h => (cellVal ic2.rows zf t h).getD 0)

/-- The cell lists of the data rows of a rendered file. -/
def parenCells (l : Line) : Option (List (NumFmt × ℤ)) :=
  match l with
  | .parenRow cs => some cs
  | _ => none

/-- The values of the bare numeric (height list) lines of a rendered
file. -/
def bareVals (ls : List Line) : List ℤ :=
  ls.filterMap (fun l =>
    match l with
    | .bareNum _ v => some v
    | _ => none)

/-- The leading (time) value of each data row of a rendered file. -/
def rowTimes (ls : List Line) : List ℤ :=
  ls.filterMap (fun l =>
    match l with
    | .parenRow ((_, t) :: _) => some t
    | _ => none)

/-- Well-formedness of a writer state: every field key of every bound
row is a column of the bound copy (automatic for a pandas frame). -/
def wfIC (ic : InternalCoupling) : Bool :=
  ic.rows.all (fun r => r.vals.all (fun p => decide (p.1 ∈ ic.cols)))

/-- Whether an export call failed. -/
def isErr (e : Except CouplingError Unit) : Bool :=
  match e with
  | .error _ => true
  | .ok _ => false

/-! Concrete datasets used by witnesses and counterexamples. -/

/-- A four-row, two-time, two-height dataset with complete `u`, `v`,
`theta` columns, times and heights appearing in ascending order. -/
def dfA : DataFrame :=
  { cols := ["u", "v", "theta"],
    rows :=
      [ { time := 0, height := 0,
          vals := [("u", some 1), ("v", some 2), ("theta", some 300)] },
        { time := 0, height := 10,
          vals := [("u", some 3), ("v", some 4), ("theta", some 301)] },
        { time := 1, height := 0,
          vals := [("u", some 5), ("v", some 6), ("theta", some 302)] },
        { time := 1, height := 10,
          vals := [("u", some 7), ("v", some 8), ("theta", some 303)] } ] }

/-- The writer state that construction on `dfA` with default window and
no reference instant produces. -/
def icA : InternalCoupling :=
  { cols := ["u", "v", "theta"],
    rows :=
      [ { time := 0, height := 0, t_index := 0,
          vals := [("u", some 1), ("v", some 2), ("theta", some 300)] },
        { time := 0, height := 10, t_index := 0,
          vals := [("u", some 3), ("v", some 4), ("theta", some 301)] },
        { time := 1, height := 0, t_index := 1,
          vals := [("u", some 5), ("v", some 6), ("theta", some 302)] },
        { time := 1, height := 10, t_index := 1,
          vals := [("u", some 7), ("v", some 8), ("theta", some 303)] } ] ,
    datefrom := 0,
    dateref := none }

/-- The writer state that construction on `dfA` with reference instant
100 and default window produces. -/
def icB : InternalCoupling :=
  { cols := ["u", "v", "theta"],
    rows :=
      [ { time := 0, height := 0, t_index := -100,
          vals := [("u", some 1), ("v", some 2), ("theta", some 300)] },
        { time := 0, height := 10, t_index := -100,
          vals := [("u", some 3), ("v", some 4), ("theta", some 301)] },
        { time := 1, height := 0, t_index := -99,
          vals := [("u", some 5), ("v", some 6), ("theta", some 302)] },
        { time := 1, height := 10, t_index := -99,
          vals := [("u", some 7), ("v", some 8), ("theta", some 303)] } ] ,
    datefrom := 0,
    dateref := some 100 }

/-- A two-row dataset whose heights appear in descending order
(10 before 0), with complete `u`, `v`, `w` columns at one time. -/
def dfU : DataFrame :=
  { cols := ["u", "v", "w"],
    rows :=
      [ { time := 0, height := 10,
          vals := [("u", some 1), ("v", some 2), ("w", some 3)] },
        { time := 0, height := 0,
          vals := [("u", some 4), ("v", some 5), ("w", some 6)] } ] }

/-- The writer state that construction on `dfU` with default window
produces. -/
def icU : InternalCoupling :=
  { cols := ["u", "v", "w"],
    rows :=
      [ { time := 0, height := 10, t_index := 0,
          vals := [("u", some 1), ("v", some 2), ("w", some 3)] },
        { time := 0, height := 0, t_index := 0,
          vals := [("u", some 4), ("v", some 5), ("w", some 6)] } ] ,
    datefrom := 0,
    dateref := none }

/-- A dataset whose rows are not sorted by time (time 2 before
time 1), with a complete `q` column. -/
def dfR : DataFrame :=
  { cols := ["q"],
    rows :=
      [ { time := 2, height := 0, vals := [("q", some 5)] },
        { time := 1, height := 0, vals := [("q", some 7)] } ] }

/-- The writer state that construction on `dfR` with the explicit
window [1, 2] produces: the bound copy keeps the original row order. -/
def icR : InternalCoupling :=
  { cols := ["q"],
    rows :=
      [ { time := 2, height := 0, t_index := 2, vals := [("q", some 5)] },
        { time := 1, height := 0, t_index := 1, vals := [("q", some 7)] } ] ,
    datefrom := 1,
    dateref := none }

/-- A dataset with two times arriving out of order (time 2 before
time 1) at a single height, with complete `u`, `v`, `w` columns
carrying distinct values at the two times. -/
def dfT : DataFrame :=
  { cols := ["u", "v", "w"],
    rows :=
      [ { time := 2, height := 0,
          vals := [("u", some 5), ("v", some 6), ("w", some 7)] },
        { time := 1, height := 0,
          vals := [("u", some 8), ("v", some 9), ("w", some 10)] } ] }

/-- The writer state that construction on `dfT` with the explicit
window [1, 2] produces: the bound copy keeps the original row order. -/
def icT : InternalCoupling :=
  { cols := ["u", "v", "w"],
    rows :=
      [ { time := 2, height := 0, t_index := 2,
          vals := [("u", some 5), ("v", some 6), ("w", some 7)] },
        { time := 1, height := 0, t_index := 1,
          vals := [("u", some 8), ("v", some 9), ("w", some 10)] } ] ,
    datefrom := 1,
    dateref := none }

/-- A single-row writer state whose only field `u` holds a missing
value. -/
def icGap : InternalCoupling :=
  { cols := ["u"],
    rows := [ { time := 0, height := 0, t_index := 0, vals := [("u", none)] } ],
    datefrom := 0,
    dateref := none }

/-- A nonempty file system used to observe that failed exports leave
the directory untouched. -/
def fs0 : FS := [("keep", [Line.label "x"])]

/-! Helper lemmas. -/

theorem uniqApp_nodup (l : List ℤ) : (uniqApp l).Nodup :=
  List.nodup_reverse.mpr (List.nodup_dedup _)

theorem uniqApp_toFinset (l : List ℤ) : (uniqApp l).toFinset = l.toFinset := by
  unfold uniqApp
  rw [List.toFinset_reverse]
  have h : l.reverse.dedup.toFinset = l.reverse.toFinset :=
    List.toFinset.ext (by simp)
  rw [h, List.toFinset_reverse]

theorem uniqApp_length (l : List ℤ) : (uniqApp l).length = l.toFinset.card := by
  rw [← uniqApp_toFinset, List.toFinset_card_of_nodup (uniqApp_nodup l)]

theorem toFinset_map_card (l : List ℤ) (f : ℤ → ℤ) (hf : Function.Injective f) :
    (l.map f).toFinset.card = l.toFinset.card := by
  have h : (l.map f).toFinset = l.toFinset.image f := by
    apply List.toFinset.ext
    intro x
    simp
  rw [h, Finset.card_image_of_injective _ hf]

theorem tShift_injective (dateref : Option ℤ) :
    Function.Injective (tShift dateref) := by
  cases dateref with
  | none => exact fun a b h => h
  | some c =>
    intro a b h
    simpa [tShift] using sub_left_injective h

theorem BRow.get_append_ne (r : BRow) (g : String) (v : Option ℤ) (f : String)
    (hne : g ≠ f) :
    (BRow.get { r with vals := r.vals ++ [(g, v)] } f) = r.get f := by
  unfold BRow.get
  rw [List.lookup_append]
  cases h : r.vals.lookup f with
  | some w => simp [h]
  | none =>
    have hg : ((f == g) = false) := by
      simp [Ne.symm hne]
    simp [h, List.lookup, hg]

theorem lookup_eq_none_of_keys_in (vals : List (String × Option ℤ))
    (cols : List String) (f : String)
    (hwf : ∀ p ∈ vals, p.1 ∈ cols) (hf : f ∉ cols) :
    vals.lookup f = none := by
  induction vals with
  | nil => rfl
  | cons p vs ih =>
    have hk : p.1 ∈ cols := hwf p (by simp)
    have hne : (f == p.1) = false := by
      have : f ≠ p.1 := fun he => hf (he ▸ hk)
      simp [this]
    simp only [List.lookup, hne]
    exact ih (fun q hq => hwf q (by simp [hq]))

theorem zf_get_stable (L : List String) :
    ∀ (cols : List String) (rows : List BRow) (f : String), f ∈ cols →
      ((zfMany (cols, rows) L).2.map (fun r => r.get f)) =
        rows.map (fun r => r.get f) := by
  induction L with
  | nil => intro cols rows f _; rfl
  | cons g L ih =>
    intro cols rows f hf
    show ((zfMany (zfOne (cols, rows) g) L).2.map _) = _
    by_cases hg : g ∈ cols
    · rw [zfOne, if_pos hg]
      exact ih cols rows f hf
    · rw [zfOne, if_neg hg]
      have hstep := ih (cols ++ [g]) (addZeroCol rows g) f
        (List.mem_append_left _ hf)
      rw [hstep]
      unfold addZeroCol
      rw [List.map_map]
      apply List.map_congr_left
      intro r _
      exact BRow.get_append_ne r g (some 0) f (fun he => hg (he ▸ hf))

theorem zf_length (L : List String) :
    ∀ (cols : List String) (rows : List BRow),
      (zfMany (cols, rows) L).2.length = rows.length := by
  induction L with
  | nil => intro cols rows; rfl
  | cons g L ih =>
    intro cols rows
    show ((zfMany (zfOne (cols, rows) g) L).2.length) = _
    by_cases hg : g ∈ cols
    · rw [zfOne, if_pos hg]; exact ih cols rows
    · rw [zfOne, if_neg hg]
      rw [ih (cols ++ [g]) (addZeroCol rows g)]
      simp [addZeroCol]

theorem zf_get_filled (L : List String) :
    ∀ (cols : List String) (rows : List BRow) (f : String),
      f ∉ cols → f ∈ L → (∀ r ∈ rows, r.vals.lookup f = none) →
      ((zfMany (cols, rows) L).2.map (fun r => r.get f)) =
        rows.map (fun _ => (some 0 : Option ℤ)) := by
  induction L with
  | nil => intro cols rows f _ hfL _; exact absurd hfL (by simp)
  | cons g L ih =>
    intro cols rows f hfc hfL hnone
    show ((zfMany (zfOne (cols, rows) g) L).2.map _) = _
    by_cases hg : g ∈ cols
    · rw [zfOne, if_pos hg]
      have hne : f ≠ g := fun he => hfc (he ▸ hg)
      have hfL2 : f ∈ L := by
        rcases List.mem_cons.mp hfL with h | h
        · exact absurd h hne
        · exact h
      exact ih cols rows f hfc hfL2 hnone
    · rw [zfOne, if_neg hg]
      by_cases hfg : f = g
      · subst hfg
        have hstable := zf_get_stable L (cols ++ [f]) (addZeroCol rows f) f
          (List.mem_append_right _ (by simp))
        rw [hstable]
        unfold addZeroCol
        rw [List.map_map]
        apply List.map_congr_left
        intro r hr
        show BRow.get { r with vals := r.vals ++ [(f, some 0)] } f = some 0
        unfold BRow.get
        rw [List.lookup_append, hnone r hr]
        simp [List.lookup]
      · have hfc2 : f ∉ cols ++ [g] := by
          intro hmem
          rcases List.mem_append.mp hmem with h | h
          · exact hfc h
          · exact hfg (by simpa using h)
        have hfL2 : f ∈ L := by
          rcases List.mem_cons.mp hfL with h | h
          · exact absurd h hfg
          · exact h
        have hnone2 : ∀ r ∈ addZeroCol rows g, r.vals.lookup f = none := by
          intro r hr
          rcases List.mem_map.mp hr with ⟨s, hs, hse⟩
          subst hse
          rw [List.lookup_append, hnone s hs]
          have hne : (f == g) = false := by simp [hfg]
          simp [List.lookup, hne]
        rw [ih (cols ++ [g]) (addZeroCol rows g) f hfc2 hfL2 hnone2]
        unfold addZeroCol
        rw [List.map_map]
        rfl

theorem momBad_of_count (xmom ymom zmom : Option String)
    (h : momCount xmom ymom zmom = 1 ∨ momCount xmom ymom zmom = 2) :
    momBad xmom ymom zmom = true := by
  rcases xmom <;> rcases ymom <;> rcases zmom <;>
    simp_all [momCount, momBad]

theorem momBad_false_of_count (xmom ymom zmom : Option String)
    (h : momCount xmom ymom zmom = 0 ∨ momCount xmom ymom zmom = 3) :
    momBad xmom ymom zmom = false := by
  rcases xmom <;> rcases ymom <;> rcases zmom <;>
    simp_all [momCount, momBad]

theorem completeOn_eq_map (rows : List BRow) (f : String) :
    completeOn rows f =
      (rows.map (fun r => r.get f)).all (fun o => o.isSome) := by
  unfold completeOn
  induction rows with
  | nil => rfl
  | cons r rs ih => simp only [List.all_cons, List.map_cons, ih]

theorem wf_lookup_none (ic : InternalCoupling) (hwf : wfIC ic = true)
    (f : String) (hf : f ∉ ic.cols) :
    ∀ r ∈ snapshotOf ic, r.vals.lookup f = none := by
  intro r hr
  have hrin : r ∈ ic.rows := List.mem_of_mem_filter hr
  simp only [wfIC, List.all_eq_true, decide_eq_true_eq] at hwf
  exact lookup_eq_none_of_keys_in r.vals ic.cols f (hwf r hrin) hf

theorem bareVals_append (a b : List Line) :
    bareVals (a ++ b) = bareVals a ++ bareVals b :=
  List.filterMap_append a b _

theorem bareVals_map_bareNum (zs : List ℤ) :
    bareVals (zs.map (fun h => Line.bareNum NumFmt.general h)) = zs := by
  induction zs with
  | nil => rfl
  | cons z zs ih => simp only [List.map_cons, bareVals, List.filterMap_cons] at ih ⊢; rw [ih]

theorem bareVals_map_parenRow {α : Type} (f : α → List (NumFmt × ℤ))
    (l : List α) :
    bareVals (l.map (fun a => Line.parenRow (f a))) = [] := by
  induction l with
  | nil => rfl
  | cons a l ih => simp only [List.map_cons, bareVals, List.filterMap_cons] at ih ⊢; rw [ih]

theorem parenCells_map_parenRow {α : Type} (f : α → List (NumFmt × ℤ))
    (l : List α) :
    (l.map (fun a => Line.parenRow (f a))).filterMap parenCells = l.map f := by
  induction l with
  | nil => rfl
  | cons a l ih => simp [List.filterMap_cons, parenCells, ih]

theorem parenCells_map_bareNum (zs : List ℤ) :
    (zs.map (fun h => Line.bareNum NumFmt.general h)).filterMap parenCells =
      [] := by
  induction zs with
  | nil => rfl
  | cons z zs ih => simp [List.filterMap_cons, parenCells, ih]

theorem bareVals_heightsBlock (n : String) (zs : List ℤ) :
    bareVals (thHeightsBlock n zs) = zs := by
  unfold thHeightsBlock
  rw [bareVals_append, bareVals_append, bareVals_map_bareNum]
  simp [bareVals]

theorem bareVals_tableBlock (n : String) (ts tS hS : List ℤ)
    (g : ℤ → ℤ → ℤ) : bareVals (thTableBlock n ts tS hS g) = [] := by
  unfold thTableBlock
  rw [bareVals_append, bareVals_append,
    bareVals_map_parenRow (fun i => (NumFmt.general, ts.getD i 0) ::
      hS.map (fun h => (NumFmt.sig12, g (tS.getD i 0) h)))]
  simp [bareVals]

theorem parenCells_heightsBlock (n : String) (zs : List ℤ) :
    (thHeightsBlock n zs).filterMap parenCells = [] := by
  unfold thHeightsBlock
  rw [List.filterMap_append, List.filterMap_append, parenCells_map_bareNum]
  simp [parenCells]

theorem parenCells_tableBlock (n : String) (ts tS hS : List ℤ)
    (g : ℤ → ℤ → ℤ) :
    (thTableBlock n ts tS hS g).filterMap parenCells =
      (List.range ts.length).map (fun i =>
        (NumFmt.general, ts.getD i 0) ::
          hS.map (fun h => (NumFmt.sig12, g (tS.getD i 0) h))) := by
  unfold thTableBlock
  rw [List.filterMap_append, List.filterMap_append,
    parenCells_map_parenRow (fun i => (NumFmt.general, ts.getD i 0) ::
      hS.map (fun h => (NumFmt.sig12, g (tS.getD i 0) h)))]
  simp [parenCells]

theorem init_times_shift
    (df : DataFrame) (dateref datefrom dateto : Option ℤ)
    (ic : InternalCoupling)
    (hic : initIC df dateref datefrom dateto = .ok ic) :
    ic.rows.map (fun r => r.t_index) =
      (ic.rows.map (fun r => r.time)).map (tShift dateref) := by
  unfold initIC at hic
  split at hic
  · dsimp only at hic
    split at hic
    · exact absurd hic (by simp)
    · injection hic with h
      rw [← h]
      simp only [List.map_map]
      rfl
  · exact absurd hic (by simp)

/-! Claim theorems. -/

/-- C1: for every dataset and window (each endpoint defaulting to the
dataset's first/last time label when unspecified), the bound copy after
construction contains exactly the rows whose time label lies in the
closed window; if the filter selects zero rows, construction fails with
the empty-window error. -/
theorem window_filter_exact
    (df : DataFrame) (dateref datefrom dateto : Option ℤ) (a b : ℤ)
    (ha : resolveFrom df datefrom = some a)
    (hb : resolveTo df dateto = some b) :
    (df.rows.filter (inWindow a b) = [] →
      initIC df dateref datefrom dateto = .error .emptyWindowError) ∧
    (∀ ic, initIC df dateref datefrom dateto = .ok ic →
      ic.rows.map BRow.toRow = df.rows.filter (inWindow a b)) := by
  constructor
  · intro hsel
    simp only [initIC, ha, hb]
    rw [if_pos hsel]
  · intro ic hic
    simp only [initIC, ha, hb] at hic
    by_cases hsel : df.rows.filter (inWindow a b) = []
    · rw [if_pos hsel] at hic
      exact absurd hic (by simp)
    · rw [if_neg hsel] at hic
      injection hic with h
      rw [← h]
      show ((df.rows.filter (inWindow a b)).map (mkBRow dateref)).map
        BRow.toRow = df.rows.filter (inWindow a b)
      rw [List.map_map]
      have hcomp : BRow.toRow ∘ mkBRow dateref = id := funext fun r => rfl
      rw [hcomp, List.map_id]

/-- Witness for C1 at a concrete dataset with default endpoints. -/
theorem window_filter_exact_witness :
    icA.rows.map BRow.toRow = dfA.rows.filter (inWindow 0 1) :=
  (window_filter_exact dfA none none none 0 1 rfl rfl).2 icA (by decide)

/-- C2: after construction every bound row's `t_index` is computed in
the single mode fixed by the optional reference instant: seconds from
the reference when one is supplied, the total seconds of the
elapsed-time label otherwise (`tShift`). -/
theorem t_index_modes
    (df : DataFrame) (dateref datefrom dateto : Option ℤ)
    (ic : InternalCoupling)
    (hic : initIC df dateref datefrom dateto = .ok ic) :
    ∀ br ∈ ic.rows, br.t_index = tShift dateref br.time := by
  unfold initIC at hic
  split at hic
  · dsimp only at hic
    split at hic
    · exact absurd hic (by simp)
    · injection hic with h
      rw [← h]
      intro br hbr
      obtain ⟨r, _, rfl⟩ := List.mem_map.mp hbr
      rfl
  · exact absurd hic (by simp)

/-- Witness for C2 in reference mode at the first bound row of a
concrete dataset. -/
theorem t_index_modes_witness :
    (icB.rows.getD 0 { time := 0, height := 0, t_index := 0, vals := [] }
      ).t_index =
      tShift (some 100)
        (icB.rows.getD 0
          { time := 0, height := 0, t_index := 0, vals := [] }).time :=
  t_index_modes dfA (some 100) none none icB (by decide)
    (icB.rows.getD 0 { time := 0, height := 0, t_index := 0, vals := [] })
    (by decide)

/-- C3: the time-height export fails with the momentum-spec error, and
writes nothing, exactly when one or two of the three momentum
components are supplied; with zero or three supplied no momentum-spec
error is raised, whatever `temp` is. -/
theorem momentum_all_or_nothing
    (ic : InternalCoupling) (fs : FS) (fname : String)
    (xmom ymom zmom temp : Option String) :
    (momCount xmom ymom zmom = 1 ∨ momCount xmom ymom zmom = 2 →
      (write_timeheight_full ic fs fname xmom ymom zmom temp).1 =
        .error .incompleteMomentumSpecError ∧
      (write_timeheight_full ic fs fname xmom ymom zmom temp).2.2 = fs) ∧
    (momCount xmom ymom zmom = 0 ∨ momCount xmom ymom zmom = 3 →
      (write_timeheight_full ic fs fname xmom ymom zmom temp).1 ≠
        .error .incompleteMomentumSpecError) := by
  constructor
  · intro h
    have hb := momBad_of_count xmom ymom zmom h
    unfold write_timeheight_full
    rw [if_pos hb]
    exact ⟨rfl, rfl⟩
  · intro h
    have hb := momBad_false_of_count xmom ymom zmom h
    unfold write_timeheight_full
    rw [if_neg (by simp [hb])]
    dsimp only
    split
    · split
      · simp
      · simp
    · simp

/-- Witness for C3: one component supplied errors without writing;
all three supplied raises no momentum-spec error. -/
theorem momentum_all_or_nothing_witness :
    ((write_timeheight_full icA [] "f1" (some "u") none none none).1 =
        .error .incompleteMomentumSpecError ∧
      (write_timeheight_full icA [] "f1" (some "u") none none none).2.2 =
        ([] : FS)) ∧
    (write_timeheight_full icA [] "f2" (some "u") (some "v") (some "w")
        none).1 ≠ .error .incompleteMomentumSpecError :=
  ⟨(momentum_all_or_nothing icA [] "f1" (some "u") none none none).1
      (Or.inl (by decide)),
    (momentum_all_or_nothing icA [] "f2" (some "u") (some "v") (some "w")
        none).2 (Or.inr (by decide))⟩

/-- C4 (amended): on a bound dataset with complete momentum fields the
momentum output consists of a `sourceHeightsMomentum` block listing the
distinct height values in order of first appearance — exactly H height
lines for H distinct heights — and three momentum table blocks, each
with exactly T data rows for T distinct time values, each data row
holding a time value followed by exactly H value columns ordered by
ascending height. -/
theorem timeheight_shape
    (df : DataFrame) (dateref datefrom dateto : Option ℤ)
    (ic : InternalCoupling) (fs : FS) (fname xf yf zf : String)
    (hic : initIC df dateref datefrom dateto = .ok ic)
    (hnodup : ((zeroFillIC ic [xf, yf, zf]).rows.map
      (fun r => (r.time, r.height))).Nodup)
    (hcomp : thComplete ic (zeroFillIC ic [xf, yf, zf]) [xf, yf, zf] =
      true) :
    write_timeheight_full ic fs fname (some xf) (some yf) (some zf) none =
      (.ok (), zeroFillIC ic [xf, yf, zf],
        fsWrite fs fname
          (thMomLines ic (zeroFillIC ic [xf, yf, zf]) xf yf zf)) ∧
    bareVals (thMomLines ic (zeroFillIC ic [xf, yf, zf]) xf yf zf) =
      thZs ic ∧
    (thZs ic).length = (ic.rows.map (fun r => r.height)).toFinset.card ∧
    (thTs ic).length = (ic.rows.map (fun r => r.time)).toFinset.card ∧
    List.Sorted (fun a b : ℤ => a ≤ b) (thHsSorted ic) ∧
    (thHsSorted ic).Nodup ∧
    (thHsSorted ic).toFinset = (ic.rows.map (fun r => r.height)).toFinset ∧
    (thHsSorted ic).length =
      (ic.rows.map (fun r => r.height)).toFinset.card ∧
    ((thMomLines ic (zeroFillIC ic [xf, yf, zf]) xf yf zf).filterMap
        parenCells).length =
      3 * (ic.rows.map (fun r => r.time)).toFinset.card ∧
    ∀ cs ∈ (thMomLines ic (zeroFillIC ic [xf, yf, zf]) xf yf zf).filterMap
        parenCells,
      cs.length = 1 + (ic.rows.map (fun r => r.height)).toFinset.card := by
  have hreq : ([some xf, some yf, some zf, none].filterMap id) =
      [xf, yf, zf] := rfl
  have hZsLen : (thZs ic).length =
      (ic.rows.map (fun r => r.height)).toFinset.card := by
    unfold thZs
    rw [uniqApp_length]
  have hTsLen : (thTs ic).length =
      (ic.rows.map (fun r => r.time)).toFinset.card := by
    unfold thTs
    rw [uniqApp_length, init_times_shift df dateref datefrom dateto ic hic,
      toFinset_map_card _ _ (tShift_injective dateref)]
  have hperm : (thHsSorted ic).Perm (thZs ic) :=
    List.perm_insertionSort _ _
  have hsorted : List.Sorted (fun a b : ℤ => a ≤ b) (thHsSorted ic) :=
    List.sorted_insertionSort _ _
  have hnodupHs : (thHsSorted ic).Nodup :=
    hperm.nodup_iff.mpr (uniqApp_nodup _)
  have hfinsetHs : (thHsSorted ic).toFinset =
      (ic.rows.map (fun r => r.height)).toFinset :=
    (List.toFinset_eq_of_perm _ _ hperm).trans (uniqApp_toFinset _)
  have hlenHs : (thHsSorted ic).length =
      (ic.rows.map (fun r => r.height)).toFinset.card := by
    rw [hperm.length_eq]
    exact hZsLen
  have heq : write_timeheight_full ic fs fname (some xf) (some yf)
      (some zf) none =
      (.ok (), zeroFillIC ic [xf, yf, zf],
        fsWrite fs fname
          (thMomLines ic (zeroFillIC ic [xf, yf, zf]) xf yf zf)) := by
    unfold write_timeheight_full
    rw [if_neg (by simp [momBad])]
    dsimp only
    rw [hreq, if_pos hnodup, if_pos hcomp]
    rw [if_pos (by simp :
      ([(some xf).isSome, (some yf).isSome, (some zf).isSome].any id) =
        true)]
    rw [List.append_nil]
    rfl
  have hcells : (thMomLines ic (zeroFillIC ic [xf, yf, zf]) xf yf zf
      ).filterMap parenCells =
      (List.range (thTs ic).length).map (fun i =>
        (NumFmt.general, (thTs ic).getD i 0) ::
          (thHsSorted ic).map (fun h => (NumFmt.sig12,
            (cellVal (zeroFillIC ic [xf, yf, zf]).rows xf
              ((thTSorted (zeroFillIC ic [xf, yf, zf])).getD i 0) h).getD
                0))) ++
      (List.range (thTs ic).length).map (fun i =>
        (NumFmt.general, (thTs ic).getD i 0) ::
          (thHsSorted ic).map (fun h => (NumFmt.sig12,
            (cellVal (zeroFillIC ic [xf, yf, zf]).rows yf
              ((thTSorted (zeroFillIC ic [xf, yf, zf])).getD i 0) h).getD
                0))) ++
      (List.range (thTs ic).length).map (fun i =>
        (NumFmt.general, (thTs ic).getD i 0) ::
          (thHsSorted ic).map (fun h => (NumFmt.sig12,
            (cellVal (zeroFillIC ic [xf, yf, zf]).rows zf
              ((thTSorted (zeroFillIC ic [xf, yf, zf])).getD i 0) h).getD
                0))) := by
    unfold thMomLines
    rw [List.filterMap_append, List.filterMap_append,
      List.filterMap_append, parenCells_heightsBlock,
      parenCells_tableBlock, parenCells_tableBlock, parenCells_tableBlock]
    simp [List.append_assoc]
  refine ⟨heq, ?_, hZsLen, hTsLen, hsorted, hnodupHs, hfinsetHs, hlenHs,
    ?_, ?_⟩
  · unfold thMomLines
    rw [bareVals_append, bareVals_append, bareVals_append,
      bareVals_heightsBlock, bareVals_tableBlock, bareVals_tableBlock,
      bareVals_tableBlock]
    simp
  · rw [hcells]
    simp only [List.length_append, List.length_map, List.length_range]
    rw [hTsLen]
    ring
  · intro cs hcs
    rw [hcells] at hcs
    have hlen : ∀ i : ℕ, ((NumFmt.general, (thTs ic).getD i 0) ::
        (thHsSorted ic).map (fun h => (NumFmt.sig12,
          (cellVal (zeroFillIC ic [xf, yf, zf]).rows xf
            ((thTSorted (zeroFillIC ic [xf, yf, zf])).getD i 0) h).getD
              0))).length =
        1 + (ic.rows.map (fun r => r.height)).toFinset.card := by
      intro i
      simp [List.length_map, ← hlenHs, Nat.add_comm]
    rcases List.mem_append.mp hcs with hcs | hcs
    · rcases List.mem_append.mp hcs with hcs | hcs <;>
      · obtain ⟨i, _, rfl⟩ := List.mem_map.mp hcs
        simp [List.length_map, ← hlenHs, Nat.add_comm]
    · obtain ⟨i, _, rfl⟩ := List.mem_map.mp hcs
      simp [List.length_map, ← hlenHs, Nat.add_comm]

/-- Witness for C4 at a concrete dataset whose `w` field is absent and
zero-filled. -/
theorem timeheight_shape_witness :
    write_timeheight_full icA [] "th" (some "u") (some "v") (some "w")
        none =
      (.ok (), zeroFillIC icA ["u", "v", "w"],
        fsWrite [] "th"
          (thMomLines icA (zeroFillIC icA ["u", "v", "w"]) "u" "v" "w")) :=
  (timeheight_shape dfA none none none icA [] "th" "u" "v" "w" (by decide)
    (by decide) (by decide)).1

/-- Counterexample to C4 as stated, in both of its failing aspects.
First, on `dfU` (heights appearing 10 before 0 at one time) the height
list of the momentum block is written in appearance order, not sorted.
Second, on `dfT` (times arriving 2 before 1) a data row does not hold
the values of the time it is labelled with: the first `u`-table row is
labelled with the appearance-order time 2 but carries 8 — the `u`
value of the sorted pivot's first time 1 — instead of the dataset's
`u` value 5 at time 2 and height 0. -/
theorem timeheight_unsorted_heights_and_mispaired_times :
    (initIC dfU none none none = .ok icU ∧
      (write_timeheight_full icU [] "th" (some "u") (some "v") (some "w")
          none).1 = .ok () ∧
      bareVals (((write_timeheight_full icU [] "th" (some "u") (some "v")
          (some "w") none).2.2.lookup "th").getD []) = [10, 0] ∧
      ¬ List.Sorted (fun a b : ℤ => a ≤ b) [(10 : ℤ), 0]) ∧
    (initIC dfT none (some 1) (some 2) = .ok icT ∧
      (((((write_timeheight_full icT [] "th" (some "u") (some "v")
            (some "w") none).2.2.lookup "th").getD []).filterMap
          parenCells).getD 0 []) =
        [(NumFmt.general, 2), (NumFmt.sig12, 8)] ∧
      cellVal icT.rows "u" 2 0 = some 5 ∧
      ((((((write_timeheight_full icT [] "th" (some "u") (some "v")
            (some "w") none).2.2.lookup "th").getD []).filterMap
          parenCells).getD 0 []).getD 1 (NumFmt.general, 0)).2 ≠
        (cellVal icT.rows "u" 2 0).getD 0) := by
  exact ⟨⟨by decide, by decide, by decide, by decide⟩,
    ⟨by decide, by decide, by decide, by decide⟩⟩

/-- C5 (amended): writeBoundaryConditions writes exactly one
parenthesized line per bound row, in the order the rows appear in the
bound copy, holding the row's `t_index` in the general format and the
scaled field value with 12 significant digits, with no header or
footer lines. -/
theorem write_BCs_lines
    (ic : InternalCoupling) (fieldname : String) (fact : ℤ)
    (hmem : fieldname ∈ ic.cols)
    (hcomp : completeOn ic.rows fieldname = true) :
    write_BCs ic fieldname fact = .ok (ic.rows.map (fun r =>
      Line.parenRow [(NumFmt.general, r.t_index),
        (NumFmt.sig12, fact * ((r.get fieldname).getD 0))])) := by
  unfold write_BCs
  rw [if_pos hmem, if_pos hcomp]

/-- Witness for C5 on a concrete writer. -/
theorem write_BCs_lines_witness :
    write_BCs icA "u" 2 = .ok (icA.rows.map (fun r =>
      Line.parenRow [(NumFmt.general, r.t_index),
        (NumFmt.sig12, 2 * ((r.get "u").getD 0))])) :=
  write_BCs_lines icA "u" 2 (by decide) (by decide)

/-- Counterexample to C5 as stated: a bound copy whose rows are not
sorted by time is written in row order, not time order. -/
theorem write_BCs_not_time_sorted :
    initIC dfR none (some 1) (some 2) = .ok icR ∧
    write_BCs icR "q" 1 = .ok
      [Line.parenRow [(NumFmt.general, 2), (NumFmt.sig12, 5)],
        Line.parenRow [(NumFmt.general, 1), (NumFmt.sig12, 7)]] ∧
    rowTimes
      [Line.parenRow [(NumFmt.general, 2), (NumFmt.sig12, 5)],
        Line.parenRow [(NumFmt.general, 1), (NumFmt.sig12, 7)]] = [2, 1] ∧
    ¬ List.Sorted (fun a b : ℤ => a ≤ b) [2, 1] := by
  exact ⟨by decide, by decide, by decide, by decide⟩

/-- C6: in the initial-conditions export a requested field absent from
the dataset is zero-filled (never an error), while a requested field
that is present but has a gap inside the start-of-window snapshot makes
the call fail with the incomplete-data error. -/
theorem write_ICs_zero_fill_and_gaps
    (ic : InternalCoupling) (fs : FS) (fname xmom ymom temp : String)
    (hwf : wfIC ic = true)
    (hsnap : snapshotOf ic ≠ []) :
    ((∃ f ∈ [xmom, ymom, temp], f ∈ ic.cols ∧
        completeOn (snapshotOf ic) f = false) →
      (write_ICs_full ic fs fname xmom ymom temp).1 =
        .error .incompleteDataError) ∧
    ((∀ f ∈ [xmom, ymom, temp], f ∈ ic.cols →
        completeOn (snapshotOf ic) f = true) →
      ∃ ls, write_ICs_full ic fs fname xmom ymom temp =
          (.ok (), ic, fsWrite fs fname ls) ∧
        ls.length = (snapshotOf ic).length ∧
        ∀ l ∈ ls, ∃ hv xv yv tv,
          l = Line.parenRow [(NumFmt.general, hv), (NumFmt.sig12, xv),
            (NumFmt.sig12, yv), (NumFmt.sig12, tv)] ∧
          (xmom ∉ ic.cols → xv = 0) ∧
          (ymom ∉ ic.cols → yv = 0) ∧
          (temp ∉ ic.cols → tv = 0)) := by
  constructor
  · rintro ⟨f, hfL, hfc, hgap⟩
    have hgap2 : completeOn
        (zfMany (ic.cols, snapshotOf ic) [xmom, ymom, temp]).2 f = false := by
      rw [completeOn_eq_map,
        zf_get_stable [xmom, ymom, temp] ic.cols (snapshotOf ic) f hfc,
        ← completeOn_eq_map]
      exact hgap
    have hall : ([xmom, ymom, temp].all
        (completeOn (zfMany (ic.cols, snapshotOf ic) [xmom, ymom, temp]).2)) =
          false :=
      List.all_eq_false.mpr ⟨f, hfL, by simp [hgap2]⟩
    unfold write_ICs_full write_ICs
    rw [if_neg hsnap]
    dsimp only
    rw [if_neg (by simp [hall])]
  · intro hpres
    have hall : ([xmom, ymom, temp].all
        (completeOn (zfMany (ic.cols, snapshotOf ic) [xmom, ymom, temp]).2)) =
          true := by
      rw [List.all_eq_true]
      intro f hfL
      by_cases hfc : f ∈ ic.cols
      · rw [completeOn_eq_map,
          zf_get_stable [xmom, ymom, temp] ic.cols (snapshotOf ic) f hfc,
          ← completeOn_eq_map]
        exact hpres f hfL hfc
      · rw [completeOn_eq_map,
          zf_get_filled [xmom, ymom, temp] ic.cols (snapshotOf ic) f hfc hfL
            (wf_lookup_none ic hwf f hfc)]
        simp
    have hW : write_ICs ic xmom ymom temp =
        .ok ((zfMany (ic.cols, snapshotOf ic) [xmom, ymom, temp]).2.map
          (fun r => Line.parenRow [(NumFmt.general, r.height),
            (NumFmt.sig12, (r.get xmom).getD 0),
            (NumFmt.sig12, (r.get ymom).getD 0),
            (NumFmt.sig12, (r.get temp).getD 0)])) := by
      unfold write_ICs
      rw [if_neg hsnap]
      dsimp only
      rw [if_pos hall]
    refine ⟨(zfMany (ic.cols, snapshotOf ic) [xmom, ymom, temp]).2.map
      (fun r => Line.parenRow [(NumFmt.general, r.height),
        (NumFmt.sig12, (r.get xmom).getD 0),
        (NumFmt.sig12, (r.get ymom).getD 0),
        (NumFmt.sig12, (r.get temp).getD 0)]), ?_, ?_, ?_⟩
    · unfold write_ICs_full
      rw [hW]
    · rw [List.length_map, zf_length]
    · intro l hl
      obtain ⟨r, hr, rfl⟩ := List.mem_map.mp hl
      refine ⟨r.height, (r.get xmom).getD 0, (r.get ymom).getD 0,
        (r.get temp).getD 0, rfl, ?_, ?_, ?_⟩
      · intro habs
        have hmem : r.get xmom ∈
            (zfMany (ic.cols, snapshotOf ic) [xmom, ymom, temp]).2.map
              (fun r => r.get xmom) := List.mem_map_of_mem _ hr
        rw [zf_get_filled [xmom, ymom, temp] ic.cols (snapshotOf ic) xmom habs
          (by simp) (wf_lookup_none ic hwf xmom habs)] at hmem
        obtain ⟨s, _, hs⟩ := List.mem_map.mp hmem
        rw [← hs]
        rfl
      · intro habs
        have hmem : r.get ymom ∈
            (zfMany (ic.cols, snapshotOf ic) [xmom, ymom, temp]).2.map
              (fun r => r.get ymom) := List.mem_map_of_mem _ hr
        rw [zf_get_filled [xmom, ymom, temp] ic.cols (snapshotOf ic) ymom habs
          (by simp) (wf_lookup_none ic hwf ymom habs)] at hmem
        obtain ⟨s, _, hs⟩ := List.mem_map.mp hmem
        rw [← hs]
        rfl
      · intro habs
        have hmem : r.get temp ∈
            (zfMany (ic.cols, snapshotOf ic) [xmom, ymom, temp]).2.map
              (fun r => r.get temp) := List.mem_map_of_mem _ hr
        rw [zf_get_filled [xmom, ymom, temp] ic.cols (snapshotOf ic) temp habs
          (by simp) (wf_lookup_none ic hwf temp habs)] at hmem
        obtain ⟨s, _, hs⟩ := List.mem_map.mp hmem
        rw [← hs]
        rfl

/-- Witness for C6: a concrete call with the y-velocity field absent
succeeds. -/
theorem write_ICs_zero_fill_and_gaps_witness :
    (write_ICs_full icA [] "ic" "u" "w" "theta").1 = .ok () := by
  obtain ⟨ls, h1, _, _⟩ :=
    (write_ICs_zero_fill_and_gaps icA [] "ic" "u" "w" "theta" (by decide)
      (by decide)).2 (by decide)
  rw [h1]

/-- C7: an export call that fails validation leaves the output
directory untouched: the file is opened only after every assertion of
the call has passed. -/
theorem validation_before_write
    (ic1 : InternalCoupling) (fs1 : FS) (n1 fieldname : String) (fact : ℤ)
    (ic2 : InternalCoupling) (fs2 : FS) (n2 xmom ymom temp : String)
    (ic3 : InternalCoupling) (fs3 : FS) (n3 : String)
    (xm ym zm tm : Option String) :
    (isErr (write_BCs_full ic1 fs1 n1 fieldname fact).1 = true →
      (write_BCs_full ic1 fs1 n1 fieldname fact).2.2 = fs1) ∧
    (isErr (write_ICs_full ic2 fs2 n2 xmom ymom temp).1 = true →
      (write_ICs_full ic2 fs2 n2 xmom ymom temp).2.2 = fs2) ∧
    (isErr (write_timeheight_full ic3 fs3 n3 xm ym zm tm).1 = true →
      (write_timeheight_full ic3 fs3 n3 xm ym zm tm).2.2 = fs3) := by
  refine ⟨?_, ?_, ?_⟩
  · unfold write_BCs_full
    split
    · intro _; rfl
    · intro h; exact absurd h (by simp [isErr])
  · unfold write_ICs_full
    split
    · intro _; rfl
    · intro h; exact absurd h (by simp [isErr])
  · unfold write_timeheight_full
    split
    · intro _; rfl
    · dsimp only
      split
      · split
        · intro h; exact absurd h (by simp [isErr])
        · intro _; rfl
      · intro _; rfl

/-- Witness for C7: a missing field, a data gap and a bad momentum
spec each leave a nonempty directory unchanged. -/
theorem validation_before_write_witness :
    (write_BCs_full icA fs0 "b" "missing" 1).2.2 = fs0 ∧
    (write_ICs_full icGap fs0 "i" "u" "v" "theta").2.2 = fs0 ∧
    (write_timeheight_full icA fs0 "t" (some "u") none none none).2.2 =
      fs0 :=
  ⟨(validation_before_write icA fs0 "b" "missing" 1 icGap fs0 "i" "u" "v"
        "theta" icA fs0 "t" (some "u") none none none).1 (by decide),
    (validation_before_write icA fs0 "b" "missing" 1 icGap fs0 "i" "u" "v"
        "theta" icA fs0 "t" (some "u") none none none).2.1 (by decide),
    (validation_before_write icA fs0 "b" "missing" 1 icGap fs0 "i" "u" "v"
        "theta" icA fs0 "t" (some "u") none none none).2.2 (by decide)⟩

/-- C8 (amended): writeBoundaryConditions and writeInitialConditions
never mutate the writer's bound copy; writeTimeHeightTable returns the
bound copy unchanged when the momentum spec is bad, and otherwise
mutates it exactly by zero-filling the requested fields absent from
its columns. -/
theorem export_state_effects
    (ic : InternalCoupling) (fs1 fs2 fs3 : FS) (n1 n2 n3 fieldname : String)
    (fact : ℤ) (xmom ymom temp : String) (xm ym zm tm : Option String) :
    (write_BCs_full ic fs1 n1 fieldname fact).2.1 = ic ∧
    (write_ICs_full ic fs2 n2 xmom ymom temp).2.1 = ic ∧
    (write_timeheight_full ic fs3 n3 xm ym zm tm).2.1 =
      (if momBad xm ym zm then ic
        else zeroFillIC ic ([xm, ym, zm, tm].filterMap id)) := by
  refine ⟨?_, ?_, ?_⟩
  · unfold write_BCs_full
    split <;> rfl
  · unfold write_ICs_full
    split <;> rfl
  · by_cases hb : momBad xm ym zm = true
    · unfold write_timeheight_full
      rw [if_pos hb, if_pos hb]
    · rw [if_neg hb]
      unfold write_timeheight_full
      rw [if_neg hb]
      dsimp only
      split
      · split <;> rfl
      · rfl

/-- Counterexample to C8 as stated: requesting an absent temperature
field makes writeTimeHeightTable add a zero column to the bound copy
itself. -/
theorem timeheight_mutates_bound_copy :
    initIC dfA none none none = .ok icA ∧
    (write_timeheight_full icA [] "th" none none none (some "q")).2.1 ≠
      icA ∧
    (write_timeheight_full icA [] "th" none none none (some "q")).2.1.cols =
      ["u", "v", "theta", "q"] := by
  exact ⟨by decide, by decide, by decide⟩

/-- C9: writeInitialConditions never mutates the writer's bound copy:
it zero-fills only a local copy of the start-of-window snapshot. -/
theorem write_ICs_preserves_state
    (ic : InternalCoupling) (fs : FS) (fname xmom ymom temp : String) :
    (write_ICs_full ic fs fname xmom ymom temp).2.1 = ic := by
  unfold write_ICs_full
  split <;> rfl

/-- C10: when the momentum spec is bad the time-height export fails
before the zero-fill substitution, leaving the writer state and the
directory completely unchanged. -/
theorem momentum_error_leaves_state
    (ic : InternalCoupling) (fs : FS) (fname : String)
    (xmom ymom zmom temp : Option String)
    (h : momCount xmom ymom zmom = 1 ∨ momCount xmom ymom zmom = 2) :
    write_timeheight_full ic fs fname xmom ymom zmom temp =
      (.error .incompleteMomentumSpecError, ic, fs) := by
  unfold write_timeheight_full
  rw [if_pos (momBad_of_count xmom ymom zmom h)]

/-- Witness for C10 at a concrete writer with one momentum component. -/
theorem momentum_error_leaves_state_witness :
    write_timeheight_full icU fs0 "th" none (some "v") none none =
      (.error .incompleteMomentumSpecError, icU, fs0) :=
  momentum_error_leaves_state icU fs0 "th" none (some "v") none none
    (Or.inl (by decide))

end Sowfa
